import Mathlib

/-!
Shallow embedding of the mqtt_dewpoint MQTT 3.1 client core
(src/mqtt/message.rs and src/mqtt/client.rs; src/mqtt.rs holds an older
variant with the same packet codec) and proofs about its packet codec,
session builders and dispatch step.

Bytes are modelled as Nat values below 256 and byte buffers as List Nat.
Rust u8 arithmetic is modelled with explicit % 256 (release-profile
wrapping semantics).  Rust panics -- slice out of range, index out of
range, explicit panic, expect on a missing value -- are modelled by an
explicit result constructor or by Option.none, as documented at each
definition.
-/

namespace Mqtt

set_option maxRecDepth 100000

/-- Decode failure cases of the packet parsers in src/mqtt/message.rs.
Each constructor corresponds to one bail site. -/
inductive ParseErr where
  | tooShort
  | badConnack
  | badPingresp
  | unknownType
  | unsupportedQos
  | invalidQos
  | lengthTooLarge
  | emptyPublish
  | utf8Error
deriving DecidableEq

/-- Result of a fallible Rust function that can also panic:
ok is the Ok value, err the bail case, panicked a process panic. -/
inductive PResult (α : Type) where
  | ok (val : α)
  | err (e : ParseErr)
  | panicked
deriving DecidableEq

/-- True exactly when the result is a returned error (a bail), as
opposed to a success or a panic. -/
def PResult.isErr {α : Type} : PResult α → Bool
  | .err _ => true
  | _ => false

/-- Message enum from src/mqtt/message.rs.  The Rust topic field is a
String; a Rust String is a UTF-8 byte sequence, so the topic is kept
here as its byte list. -/
inductive Message where
  | pingresp
  | connack
  | publish (id : List Nat) (topic : List Nat) (qos : Nat) (payload : List Nat)
  | suback (raw : List Nat)
deriving DecidableEq

/-- Validity of a UTF-8 byte sequence, as enforced by the Rust
String::from_utf8 call (RFC 3629: no overlong forms, no surrogate
code points, maximum code point U+10FFFF). -/
def validUtf8 : List Nat → Bool
  | [] => true
  | b :: r =>
    if b < 0x80 then validUtf8 r
    else if b < 0xC2 then false
    else if b < 0xE0 then
      match r with
      | b1 :: r1 => decide (0x80 ≤ b1 ∧ b1 ≤ 0xBF) && validUtf8 r1
      | [] => false
    else if b < 0xF0 then
      match r with
      | b1 :: b2 :: r1 =>
        (if b = 0xE0 then decide (0xA0 ≤ b1 ∧ b1 ≤ 0xBF)
         else if b = 0xED then decide (0x80 ≤ b1 ∧ b1 ≤ 0x9F)
         else decide (0x80 ≤ b1 ∧ b1 ≤ 0xBF))
        && decide (0x80 ≤ b2 ∧ b2 ≤ 0xBF) && validUtf8 r1
      | _ => false
    else if b < 0xF5 then
      match r with
      | b1 :: b2 :: b3 :: r1 =>
        (if b = 0xF0 then decide (0x90 ≤ b1 ∧ b1 ≤ 0xBF)
         else if b = 0xF4 then decide (0x80 ≤ b1 ∧ b1 ≤ 0x8F)
         else decide (0x80 ≤ b1 ∧ b1 ≤ 0xBF))
        && decide (0x80 ≤ b2 ∧ b2 ≤ 0xBF) && decide (0x80 ≤ b3 ∧ b3 ≤ 0xBF)
        && validUtf8 r1
      | _ => false
    else false

/-- Rust parse_publish from src/mqtt/message.rs (src/mqtt.rs holds the
same code).  The source matches on publish[0] & 6 with arms 0, 2, 4
and a default; here the two continuing arms are grouped first and the
two bail arms follow, which is the same case split.  Out-of-range
indexing (publish[1], publish[2], publish[3]) and slicing
(publish[4..topic_len+4], publish[topic_len+4..topic_len+6]) panic in
Rust and are modelled by explicit length guards returning panicked.
The qos is 1 exactly when the flag bits equal 2. -/
def parse_publish (publish : List Nat) : PResult Message :=
  if publish.length < 1 then .panicked
  else
    let qbits := publish.getD 0 0 &&& 6
    if qbits = 0 ∨ qbits = 2 then
      if publish.length < 2 then .panicked
      else
        let len := publish.getD 1 0
        if 127 ≤ len then .err .lengthTooLarge
        else if len = 0 then .err .emptyPublish
        else if publish.length < 4 then .panicked
        else
          let topic_len := publish.getD 2 0 * 256 + publish.getD 3 0
          if publish.length < topic_len + 4 then .panicked
          else
            let topicBytes := (publish.drop 4).take topic_len
            if validUtf8 topicBytes = false then .err .utf8Error
            else if qbits = 2 then
              if publish.length < topic_len + 6 then .panicked
              else
                .ok (.publish ((publish.drop (topic_len + 4)).take 2) topicBytes 1
                  (publish.drop (topic_len + 6)))
            else .ok (.publish [] topicBytes 0 (publish.drop (topic_len + 4)))
    else if qbits = 4 then .err .unsupportedQos
    else .err .invalidQos

/-- Rust parse_slice from src/mqtt/message.rs (parse_message in
src/mqtt.rs is identical).  The trim slice v[..(v[1]+2)] panics when
v[1]+2 exceeds the buffer length; the u8 addition v[1]+2 wraps modulo
256 (release profile); content[0] panics when the trimmed content is
empty.  When contentLen is at least 1 the first content byte equals
the first buffer byte, so the match scrutinee content[0] >> 4 is
written v.getD 0 0 >>> 4. -/
def parse_slice (v : List Nat) : PResult Message :=
  if v.length < 2 then .err .tooShort
  else
    let contentLen := (v.getD 1 0 + 2) % 256
    if v.length < contentLen then .panicked
    else
      let content := v.take contentLen
      if contentLen = 0 then .panicked
      else
        let t := v.getD 0 0 >>> 4
        if t = 2 then
          if content = [0x20, 2, 0, 0] then .ok .connack else .err .badConnack
        else if t = 3 then parse_publish v
        else if t = 9 then .ok (.suback v)
        else if t = 13 then
          if content = [0xD0, 0] then .ok .pingresp else .err .badPingresp
        else .err .unknownType

/-- Modelled from the spec: the variable-length integer encoder
encode_length lives in src/mqtt/mod.rs, which is absent from src/.
Spec section 4.1: emit base-128 digits least significant first, each
byte except the last with its high bit set.  The fuel argument merely
bounds the recursion depth; 5 digits cover every length below 2^35,
beyond the spec bound of 2^28 - 1, so the empty fuel-exhausted case is
never reached on inputs in scope. -/
def encodeLengthAux : Nat → Nat → List Nat
  | _, 0 => []
  | n, fuel + 1 =>
    if n < 128 then [n] else (n % 128 + 128) :: encodeLengthAux (n / 128) fuel

/-- Modelled from the spec: see encodeLengthAux. -/
def encode_length (n : Nat) : List Nat := encodeLengthAux n 5

/-- Rust make_publish from src/mqtt/message.rs.  none models the
explicit panic for topics over 127 bytes; the topic-length cast to u8
is the % 256. -/
def make_publish (topic payload : List Nat) : Option (List Nat) :=
  if 127 < topic.length then none
  else some ([0x30] ++ encode_length (topic.length + payload.length + 2)
    ++ [0, topic.length % 256] ++ topic ++ payload)

/-- Rust make_puback from src/mqtt/message.rs.  In Rust msg_id[0] and
msg_id[1] panic for ids shorter than 2 bytes; every id reaching this
function below has exactly 2 bytes, so the out-of-range default 0 is
never exercised. -/
def make_puback (msg_id : List Nat) : List Nat :=
  [0x40, 2, msg_id.getD 0 0, msg_id.getD 1 0]

/-- Handler type.  src/mqtt/mod.rs (absent from src/) names the type
PublishHandler; src/main.rs builds handlers of Rust type
Fn(Vec<u8>) -> Option<Vec<u8>> and handle_publish in
src/mqtt/client.rs calls f(payload) expecting an optional reply, so
a handler maps payload bytes to an optional reply packet. -/
def PublishHandler : Type := List Nat → Option (List Nat)

/-- Rust handle_publish from src/mqtt/client.rs: collect a PUBACK when
qos is 1, then append the handler reply when a handler exists and
returns one. -/
def handle_publish (id : List Nat) (topic : List Nat) (qos : Nat)
    (payload : List Nat) (f : Option PublishHandler) : List (List Nat) :=
  let messages := if qos = 1 then [make_puback id] else []
  match f with
  | some g =>
    match g payload with
    | some response => messages ++ [response]
    | none => messages
  | none => messages

/-- Insert with replace-on-existing-key, the behaviour of
HashMap::insert on the handler registry, on an association list keyed
by topic bytes. -/
def insertHandler : List (List Nat × PublishHandler) → List Nat → PublishHandler →
    List (List Nat × PublishHandler)
  | [], k, f => [(k, f)]
  | (k1, f1) :: rest, k, f =>
    if k1 = k then (k, f) :: rest else (k1, f1) :: insertHandler rest k f

/-- Lookup, the behaviour of HashMap::get on the handler registry. -/
def lookupHandler : List (List Nat × PublishHandler) → List Nat →
    Option PublishHandler
  | [], _ => none
  | (k1, f1) :: rest, k => if k1 = k then some f1 else lookupHandler rest k

/-- Client state from src/mqtt/client.rs.  The connected field models
Option<ConnectedClient> as a Bool, since only its presence is
observable here: the outbound channel and worker handles carry no
protocol state.  The registry HashMap<String, PublishHandler> is
modelled as an association list with replace-on-insert, keyed by
topic bytes. -/
structure Client where
  client_id : List Nat
  username : List Nat
  password : List Nat
  connected : Bool
  keep_alive_secs : Nat
  pending_subscribe_ids : List Nat
  next_message_id : Nat
  publish_functions : List (List Nat × PublishHandler)

/-- Rust Client::new from src/mqtt/client.rs.  none models the three
explicit length panics; the keep_alive_secs parameter is a u8, hence
the % 256 at the boundary. -/
def Client.new (client_id username password : List Nat) (keep_alive_secs : Nat) :
    Option Client :=
  if client_id.length < 1 ∨ 23 < client_id.length then none
  else if username.length < 1 ∨ 12 < username.length then none
  else if password.length < 1 ∨ 12 < password.length then none
  else some
    { client_id := client_id
      username := username
      password := password
      connected := false
      keep_alive_secs := keep_alive_secs % 256
      pending_subscribe_ids := []
      next_message_id := 1
      publish_functions := [] }

/-- Rust Client::make_connect from src/mqtt/client.rs.  The length
casts to u8 and the u8 sum are the % 256 terms; none models the panic
when the computed length exceeds 127. -/
def Client.make_connect (c : Client) : Option (List Nat) :=
  let cid_len := c.client_id.length % 256
  let u_len := c.username.length % 256
  let p_len := c.password.length % 256
  let len := (20 + cid_len + u_len + p_len) % 256
  if 127 < len then none
  else some
    ([0x10, len - 2, 0, 6, 77, 81, 73, 115, 100, 112, 3, 0xC2, 0,
      c.keep_alive_secs, 0, cid_len]
      ++ c.client_id ++ [0, u_len] ++ c.username ++ [0, p_len] ++ c.password)

/-- Rust Client::make_subscribe from src/mqtt/client.rs.  none models
the panic for topics over 127 bytes; the len cast to u8 and the topic
length cast to u8 are the % 256 terms; the message id increments with
u8 wrap-around. -/
def Client.make_subscribe (c : Client) (topic : List Nat) :
    Option (List Nat × Client) :=
  if 127 < topic.length then none
  else
    some (([0x82, (topic.length + 5) % 256, 0, c.next_message_id, 0,
        topic.length % 256] ++ topic ++ [1]),
      { c with next_message_id := (c.next_message_id + 1) % 256 })

/-- Outcome of Client::subscribe: panicked (topic too long), the
not-connected bail, or the packet handed to the outbound queue. -/
inductive SubOutcome where
  | panicked
  | notConnected
  | sent (msg : List Nat)

/-- Rust Client::subscribe from src/mqtt/client.rs, returning the
outcome together with the final client state.  Source order: build the
packet (the message id counter increments inside make_subscribe),
insert the handler into the registry, only then check the connection
and bail when disconnected; the pending id is recorded and the packet
queued only when connected. -/
def Client.subscribe (c : Client) (topic : List Nat) (f : PublishHandler) :
    SubOutcome × Client :=
  match c.make_subscribe topic with
  | none => (.panicked, c)
  | some (sub_msg, c1) =>
    let c2 := { c1 with publish_functions := insertHandler c1.publish_functions topic f }
    if c2.connected then
      (.sent sub_msg,
        { c2 with pending_subscribe_ids := c2.pending_subscribe_ids ++ [sub_msg.getD 3 0] })
    else (.notConnected, c2)

/-- Rust Client::publish from src/mqtt/client.rs.  The Rust function
returns unit; it panics via expect when the client is not connected,
and inside make_publish when the topic is over 127 bytes.  none models
both panics; some msg is the packet sent to the outbound queue. -/
def Client.publish (c : Client) (topic payload : List Nat) : Option (List Nat) :=
  match make_publish topic payload with
  | none => none
  | some msg => if c.connected then some msg else none

/-- The concrete client of the repository unit tests:
Client::new("iden", "username", "password", 15). -/
def freshClient : Client :=
  { client_id := [105, 100, 101, 110]
    username := [117, 115, 101, 114, 110, 97, 109, 101]
    password := [112, 97, 115, 115, 119, 111, 114, 100]
    connected := false
    keep_alive_secs := 15
    pending_subscribe_ids := []
    next_message_id := 1
    publish_functions := [] }

/-- Inversion of Client::new: a client it accepts records the given
identity, the length bounds hold, and the fresh-state fields are set. -/
theorem Client.new_inv {cid u p : List Nat} {k : Nat} {c : Client}
    (h : Client.new cid u p k = some c) :
    1 ≤ cid.length ∧ cid.length ≤ 23 ∧ 1 ≤ u.length ∧ u.length ≤ 12 ∧
    1 ≤ p.length ∧ p.length ≤ 12 ∧
    c = { client_id := cid, username := u, password := p, connected := false,
          keep_alive_secs := k % 256, pending_subscribe_ids := [],
          next_message_id := 1, publish_functions := [] } := by
  unfold Client.new at h
  by_cases h1 : cid.length < 1 ∨ 23 < cid.length
  · rw [if_pos h1] at h; exact Option.noConfusion h
  rw [if_neg h1] at h
  by_cases h2 : u.length < 1 ∨ 12 < u.length
  · rw [if_pos h2] at h; exact Option.noConfusion h
  rw [if_neg h2] at h
  by_cases h3 : p.length < 1 ∨ 12 < p.length
  · rw [if_pos h3] at h; exact Option.noConfusion h
  rw [if_neg h3] at h
  push_neg at h1 h2 h3
  exact ⟨h1.1, h1.2, h2.1, h2.2, h3.1, h3.2, (Option.some.inj h).symm⟩

/-- Looking up the key just inserted returns the just-inserted handler. -/
theorem lookupHandler_insertHandler (m : List (List Nat × PublishHandler))
    (k : List Nat) (f : PublishHandler) :
    lookupHandler (insertHandler m k f) k = some f := by
  induction m with
  | nil => simp [insertHandler, lookupHandler]
  | cons hd tl ih =>
    obtain ⟨k1, f1⟩ := hd
    unfold insertHandler
    by_cases hk : k1 = k
    · rw [if_pos hk]; simp [lookupHandler]
    · rw [if_neg hk]; simp only [lookupHandler, if_neg hk]; exact ih

/-- Claim C2 (amended): parsing the exact CONNACK success literal
yields Connack and the exact PINGRESP literal yields Pingresp; every
single-byte mutation of the third CONNACK byte yields a returned
protocol error without panicking; no single-byte mutation of the
second PINGRESP byte yields a success variant, but for mutated values
1..254 the parser panics on the out-of-range length trim (values
1..253 make the trim slice exceed the 2-byte buffer, value 254 wraps
the u8 length to zero and the content[0] index panics) and only the
value 255 produces a returned protocol error. -/
theorem connack_pingresp_validation :
    parse_slice [0x20, 2, 0, 0] = .ok .connack
    ∧ parse_slice [0xD0, 0] = .ok .pingresp
    ∧ (∀ x, x < 256 → x ≠ 0 → parse_slice [0x20, 2, x, 0] = .err .badConnack)
    ∧ (∀ x, x < 255 → 1 ≤ x → parse_slice [0xD0, x] = .panicked)
    ∧ parse_slice [0xD0, 255] = .err .badPingresp := by
  decide

/-- Witness for connack_pingresp_validation at the mutation value 7. -/
theorem connack_pingresp_validation_witness :
    parse_slice [0x20, 2, 7, 0] = .err .badConnack
    ∧ parse_slice [0xD0, 7] = .panicked :=
  ⟨connack_pingresp_validation.2.2.1 7 (by decide) (by decide),
   connack_pingresp_validation.2.2.2.1 7 (by decide) (by decide)⟩

/-- Counterexample to claim C2 as stated: mutating the second PINGRESP
byte to 1 makes the parser panic on the length trim instead of
returning a protocol error. -/
theorem pingresp_mutation_panics :
    parse_slice [0xD0, 1] = .panicked
    ∧ (parse_slice [0xD0, 1]).isErr = false := by
  decide

/-- Claim C3 (amended): the CONNECT packet for client id "iden",
username "username", password "password" and keep-alive 15 is exactly
this 40-byte sequence. -/
theorem make_connect_deterministic :
    (Client.new [105, 100, 101, 110] [117, 115, 101, 114, 110, 97, 109, 101]
        [112, 97, 115, 115, 119, 111, 114, 100] 15).bind Client.make_connect
      = some [16, 38, 0, 6, 77, 81, 73, 115, 100, 112, 3, 194, 0, 15, 0, 4,
          105, 100, 101, 110, 0, 8, 117, 115, 101, 114, 110, 97, 109, 101,
          0, 8, 112, 97, 115, 115, 119, 111, 114, 100] := by
  decide

/-- Counterexample to claim C3 as stated: the produced CONNECT packet
has 40 bytes, not 38 (38 is only the remaining-length byte inside it). -/
theorem make_connect_length_is_40 :
    ((Client.new [105, 100, 101, 110] [117, 115, 101, 114, 110, 97, 109, 101]
        [112, 97, 115, 115, 119, 111, 114, 100] 15).bind
      Client.make_connect).map List.length = some 40
    ∧ ((Client.new [105, 100, 101, 110] [117, 115, 101, 114, 110, 97, 109, 101]
        [112, 97, 115, 115, 119, 111, 114, 100] 15).bind
      Client.make_connect).map List.length ≠ some 38 := by
  decide

/-- Claim C6: parsing the buffer built by make_publish for topic "a/b"
and payload "payload" succeeds and recovers topic bytes "a/b", qos 0
and the payload bytes of "payload". -/
theorem publish_roundtrip :
    (make_publish [97, 47, 98] [112, 97, 121, 108, 111, 97, 100]).map parse_slice
      = some (.ok (.publish [] [97, 47, 98] 0
          [112, 97, 121, 108, 111, 97, 100])) := by
  decide

/-- Counterexample to claim C1 as stated: the buffer [0, 5] has length
2 and its high nibble 0 is unrecognized, yet parse_slice panics on the
length-trim slice v[..7] instead of returning an error. -/
theorem parse_slice_short_buffer_panics :
    parse_slice [0, 5] = .panicked
    ∧ (parse_slice [0, 5]).isErr = false := by
  decide

/-- Claim C1 (amended): parsing a buffer shorter than 2 bytes returns
the too-short error; parsing a buffer of length at least 2 whose
second byte b satisfies b ≤ 253 and b + 2 ≤ buffer length, and whose
first-byte high nibble is not 2, 3, 9 or 13, returns the unknown-type
error without panicking.  Without the b + 2 ≤ length bound the trim
slice panics (see parse_slice_short_buffer_panics). -/
theorem parse_slice_malformed (v : List Nat) :
    (v.length < 2 → parse_slice v = .err .tooShort)
    ∧ (2 ≤ v.length → v.getD 1 0 ≤ 253 → v.getD 1 0 + 2 ≤ v.length →
        ¬(v.getD 0 0 >>> 4 = 2 ∨ v.getD 0 0 >>> 4 = 3 ∨
          v.getD 0 0 >>> 4 = 9 ∨ v.getD 0 0 >>> 4 = 13) →
        parse_slice v = .err .unknownType) := by
  constructor
  · intro h
    simp [parse_slice, h]
  · intro hlen hb hfit hn
    push_neg at hn
    obtain ⟨hn2, hn3, hn9, hn13⟩ := hn
    have hm : (v.getD 1 0 + 2) % 256 = v.getD 1 0 + 2 := Nat.mod_eq_of_lt (by omega)
    simp only [parse_slice, hm]
    rw [if_neg (show ¬v.length < 2 by omega),
      if_neg (show ¬v.length < v.getD 1 0 + 2 by omega),
      if_neg (show ¬(v.getD 1 0 + 2 = 0) by omega),
      if_neg hn2, if_neg hn3, if_neg hn9, if_neg hn13]

/-- Witness for parse_slice_malformed: the one-byte buffer is too
short, and [0, 1, 1] (high nibble 0, declared length fitting) is an
unknown type. -/
theorem parse_slice_malformed_witness :
    parse_slice [5] = .err .tooShort
    ∧ parse_slice [0, 1, 1] = .err .unknownType :=
  ⟨(parse_slice_malformed [5]).1 (by decide),
   (parse_slice_malformed [0, 1, 1]).2 (by decide) (by decide) (by decide) (by decide)⟩

/-- Claim C4: the dispatch step emits the PUBACK [0x40, 2, 0, 27] among
its outputs for every qos-1 publish with id bytes [0, 27], whether or
not a handler is registered; for qos 0 the outputs are exactly the
optional handler reply, so no PUBACK is emitted. -/
theorem handle_publish_qos1_puback (topic payload : List Nat)
    (f : Option PublishHandler) :
    make_puback [0, 27] = [0x40, 2, 0, 27]
    ∧ [0x40, 2, 0, 27] ∈ handle_publish [0, 27] topic 1 payload f
    ∧ ∀ id, handle_publish id topic 0 payload f
        = (f.bind fun g => g payload).toList := by
  refine ⟨rfl, ?_, ?_⟩
  · unfold handle_publish
    cases f with
    | none => simp [make_puback]
    | some g => cases hg : g payload <;> simp [make_puback, hg]
  · intro id
    unfold handle_publish
    cases f with
    | none => simp
    | some g => cases hg : g payload <;> simp [hg]

/-- Claim C9 (amended): publish on a disconnected client panics (the
expect on the missing connection; for topics over 127 bytes already
inside make_publish) and hands nothing to the outbound queue; the Rust
signature returns unit, so no NotConnected error reaches the caller. -/
theorem publish_disconnected_panics (c : Client) (topic payload : List Nat)
    (hc : c.connected = false) :
    Client.publish c topic payload = none := by
  unfold Client.publish
  cases hm : make_publish topic payload with
  | none => rfl
  | some m => simp [hc]

/-- Witness for publish_disconnected_panics at the test client. -/
theorem publish_disconnected_panics_witness :
    Client.publish freshClient [116] [112] = none :=
  publish_disconnected_panics freshClient [116] [112] rfl

/-- Counterexample to claim C9 as stated: on the disconnected test
client, publish for topic "topic" and payload "pay" panics (none);
the Rust function returns unit, so there is no error value it could
hand back to the caller. -/
theorem publish_disconnected_no_error :
    Client.publish freshClient [116, 111, 112, 105, 99] [112, 97, 121] = none := by
  decide

/-- Claim C10: subscribe while disconnected reaches the not-connected
bail only after mutating the client: the handler is already registered
for the topic and the message id counter has already been incremented
when the error is returned. -/
theorem subscribe_disconnected_mutates (c : Client) (topic : List Nat)
    (f : PublishHandler) (hc : c.connected = false) (ht : topic.length ≤ 127) :
    (Client.subscribe c topic f).1 = SubOutcome.notConnected
    ∧ lookupHandler (Client.subscribe c topic f).2.publish_functions topic = some f
    ∧ (Client.subscribe c topic f).2.next_message_id
        = (c.next_message_id + 1) % 256 := by
  unfold Client.subscribe Client.make_subscribe
  rw [if_neg (by omega)]
  simp [hc, lookupHandler_insertHandler]

/-- Witness for subscribe_disconnected_mutates at the test client with
topic "t" and a handler returning no reply. -/
theorem subscribe_disconnected_mutates_witness :
    (Client.subscribe freshClient [116] (fun _ => none)).1 = SubOutcome.notConnected
    ∧ lookupHandler (Client.subscribe freshClient [116]
        (fun _ => none)).2.publish_functions [116] = some (fun _ => none)
    ∧ (Client.subscribe freshClient [116] (fun _ => none)).2.next_message_id = 2 := by
  have h := subscribe_disconnected_mutates freshClient [116] (fun _ => none) rfl
    (by decide)
  exact ⟨h.1, h.2.1, h.2.2⟩

/-- Claim C5: parse_publish maps flag bits 1-2 of the header byte as
00 to qos 0, 01 to qos 1, 10 to the unsupported-qos error and 11 to
the invalid-qos error; it fails when the single-byte remaining length
is 127 or more and when it is zero; on success with qos 1 the 2-byte
packet id is the two bytes immediately after the topic and the payload
follows the id, and with qos 0 the id is empty and the payload begins
immediately after the topic. -/
theorem parse_publish_qos_layout (v : List Nat) :
    (v.getD 0 0 &&& 6 = 4 → parse_publish v = .err .unsupportedQos)
    ∧ (v.getD 0 0 &&& 6 = 6 → parse_publish v = .err .invalidQos)
    ∧ ((v.getD 0 0 &&& 6 = 0 ∨ v.getD 0 0 &&& 6 = 2) → 127 ≤ v.getD 1 0 →
        parse_publish v = .err .lengthTooLarge)
    ∧ ((v.getD 0 0 &&& 6 = 0 ∨ v.getD 0 0 &&& 6 = 2) → 2 ≤ v.length →
        v.getD 1 0 = 0 → parse_publish v = .err .emptyPublish)
    ∧ (∀ id topic qos payload,
        parse_publish v = .ok (.publish id topic qos payload) →
        (v.getD 0 0 &&& 6 = 0 ∧ qos = 0 ∧ id = [] ∧
          payload = v.drop (topic.length + 4))
        ∨ (v.getD 0 0 &&& 6 = 2 ∧ qos = 1 ∧
          id = (v.drop (topic.length + 4)).take 2 ∧
          payload = v.drop (topic.length + 6))) := by
  refine ⟨?_, ?_, ?_, ?_, ?_⟩
  · intro h4
    have hv : v ≠ [] := fun he => absurd (he ▸ h4) (by decide)
    have hlen : 0 < v.length := List.length_pos.mpr hv
    simp only [parse_publish]
    rw [h4, if_neg (by omega)]
    simp
  · intro h6
    have hv : v ≠ [] := fun he => absurd (he ▸ h6) (by decide)
    have hlen : 0 < v.length := List.length_pos.mpr hv
    simp only [parse_publish]
    rw [h6, if_neg (by omega)]
    simp
  · intro hq h127
    have hlen2 : 2 ≤ v.length := by
      by_contra hc
      push_neg at hc
      rw [List.getD_eq_default _ _ (by omega)] at h127
      omega
    rcases hq with h0 | h0 <;>
      (simp only [parse_publish]
       rw [h0, if_neg (show ¬v.length < 1 by omega), if_pos (by decide),
         if_neg (show ¬v.length < 2 by omega), if_pos h127])
  · intro hq hlen2 hz
    rcases hq with h0 | h0 <;>
      (simp only [parse_publish]
       rw [h0, if_neg (show ¬v.length < 1 by omega), if_pos (by decide),
         if_neg (show ¬v.length < 2 by omega),
         if_neg (show ¬(127 ≤ v.getD 1 0) by omega), if_pos hz])
  · intro id topic qos payload h
    by_cases h1 : v.length < 1
    · simp only [parse_publish, if_pos h1] at h
      exact PResult.noConfusion h
    simp only [parse_publish] at h
    rw [if_neg h1] at h
    by_cases hq : v.getD 0 0 &&& 6 = 0 ∨ v.getD 0 0 &&& 6 = 2
    case neg =>
      rw [if_neg hq] at h
      by_cases h4 : v.getD 0 0 &&& 6 = 4
      · rw [if_pos h4] at h; exact PResult.noConfusion h
      · rw [if_neg h4] at h; exact PResult.noConfusion h
    case pos =>
      rw [if_pos hq] at h
      by_cases h2 : v.length < 2
      · rw [if_pos h2] at h; exact PResult.noConfusion h
      rw [if_neg h2] at h
      by_cases h127 : 127 ≤ v.getD 1 0
      · rw [if_pos h127] at h; exact PResult.noConfusion h
      rw [if_neg h127] at h
      by_cases hz : v.getD 1 0 = 0
      · rw [if_pos hz] at h; exact PResult.noConfusion h
      rw [if_neg hz] at h
      by_cases h4l : v.length < 4
      · rw [if_pos h4l] at h; exact PResult.noConfusion h
      rw [if_neg h4l] at h
      by_cases htl : v.length < v.getD 2 0 * 256 + v.getD 3 0 + 4
      · rw [if_pos htl] at h; exact PResult.noConfusion h
      rw [if_neg htl] at h
      by_cases hu : validUtf8 ((v.drop 4).take (v.getD 2 0 * 256 + v.getD 3 0)) = false
      · rw [if_pos hu] at h; exact PResult.noConfusion h
      rw [if_neg hu] at h
      by_cases hb : v.getD 0 0 &&& 6 = 2
      · rw [if_pos hb] at h
        by_cases h6 : v.length < v.getD 2 0 * 256 + v.getD 3 0 + 6
        · rw [if_pos h6] at h; exact PResult.noConfusion h
        rw [if_neg h6] at h
        simp only [PResult.ok.injEq, Message.publish.injEq] at h
        have hlen_topic : topic.length = v.getD 2 0 * 256 + v.getD 3 0 := by
          rw [← h.2.1]
          simp only [List.length_take, List.length_drop]
          omega
        refine Or.inr ⟨hb, h.2.2.1.symm, ?_, ?_⟩
        · rw [← h.1, hlen_topic]
        · rw [← h.2.2.2, hlen_topic]
      · rw [if_neg hb] at h
        simp only [PResult.ok.injEq, Message.publish.injEq] at h
        have hlen_topic : topic.length = v.getD 2 0 * 256 + v.getD 3 0 := by
          rw [← h.2.1]
          simp only [List.length_take, List.length_drop]
          omega
        rcases hq with h0 | h0
        · exact Or.inl ⟨h0, h.2.2.1.symm, h.1.symm, by rw [← h.2.2.2, hlen_topic]⟩
        · exact absurd h0 hb

/-- Witness for parse_publish_qos_layout: the four error cases at
concrete buffers, and the qos-1 success layout on the unit-test buffer
[0x32, 7, 0, 3, 97, 47, 98, 0, 27] whose id is bytes 7..8 and whose
payload is empty. -/
theorem parse_publish_qos_layout_witness :
    parse_publish [0x34, 7, 0, 3, 97, 47, 98, 0, 27] = .err .unsupportedQos
    ∧ parse_publish [0x36, 7] = .err .invalidQos
    ∧ parse_publish [0x30, 127] = .err .lengthTooLarge
    ∧ parse_publish [0x30, 0] = .err .emptyPublish
    ∧ ([0, 27] : List Nat)
        = (([0x32, 7, 0, 3, 97, 47, 98, 0, 27] : List Nat).drop 7).take 2
    ∧ ([] : List Nat) = ([0x32, 7, 0, 3, 97, 47, 98, 0, 27] : List Nat).drop 9 := by
  refine ⟨(parse_publish_qos_layout [0x34, 7, 0, 3, 97, 47, 98, 0, 27]).1 (by decide),
    (parse_publish_qos_layout [0x36, 7]).2.1 (by decide),
    (parse_publish_qos_layout [0x30, 127]).2.2.1 (by decide) (by decide),
    (parse_publish_qos_layout [0x30, 0]).2.2.2.1 (by decide) (by decide) (by decide),
    ?_⟩
  have h5 := (parse_publish_qos_layout [0x32, 7, 0, 3, 97, 47, 98, 0, 27]).2.2.2.2
    [0, 27] [97, 47, 98] 1 [] (by decide)
  rcases h5 with ⟨hbits, -, -, -⟩ | ⟨-, -, hid, hpay⟩
  · exact absurd hbits (by decide)
  · exact ⟨hid, hpay⟩

/-- Claim C7: on any client accepted by Client::new, the first
make_subscribe for "test/topic" returns exactly
[130, 15, 0, 1, 0, 10] ++ topic bytes ++ [1] and leaves the next
message id at 2; a second subscribe for any topic of at most 127 bytes
then carries packet id 2 in byte 3. -/
theorem first_subscribe_test_topic (cid u p : List Nat) (k : Nat) (c : Client)
    (h : Client.new cid u p k = some c) :
    Client.make_subscribe c [116, 101, 115, 116, 47, 116, 111, 112, 105, 99]
      = some ([130, 15, 0, 1, 0, 10, 116, 101, 115, 116, 47, 116, 111, 112,
          105, 99, 1], { c with next_message_id := 2 })
    ∧ ∀ t2 : List Nat, t2.length ≤ 127 →
        (Client.make_subscribe { c with next_message_id := 2 } t2).map
          (fun r => r.1.getD 3 0) = some 2 := by
  obtain ⟨-, -, -, -, -, -, hc⟩ := Client.new_inv h
  subst hc
  constructor
  · rfl
  · intro t2 ht2
    unfold Client.make_subscribe
    rw [if_neg (by omega)]
    simp [List.getD_cons_succ, List.getD_cons_zero, List.cons_append]

/-- Witness for first_subscribe_test_topic at the test client, second
topic "a". -/
theorem first_subscribe_test_topic_witness :
    Client.make_subscribe freshClient [116, 101, 115, 116, 47, 116, 111, 112,
        105, 99]
      = some ([130, 15, 0, 1, 0, 10, 116, 101, 115, 116, 47, 116, 111, 112,
          105, 99, 1], { freshClient with next_message_id := 2 })
    ∧ (Client.make_subscribe { freshClient with next_message_id := 2 } [97]).map
        (fun r => r.1.getD 3 0) = some 2 := by
  have h := first_subscribe_test_topic [105, 100, 101, 110]
    [117, 115, 101, 114, 110, 97, 109, 101] [112, 97, 115, 115, 119, 111, 114, 100]
    15 freshClient rfl
  exact ⟨h.1, h.2 [97] (by decide)⟩

/-- Claim C8: for every client accepted by Client::new, make_connect
does not hit its length-overflow panic branch and yields a packet of
total length at most 127 whose second byte is the total length minus
2. -/
theorem make_connect_bounded (cid u p : List Nat) (k : Nat) (c : Client)
    (h : Client.new cid u p k = some c) :
    Client.make_connect c ≠ none
    ∧ ((Client.make_connect c).getD []).length ≤ 127
    ∧ ((Client.make_connect c).getD []).getD 1 0
        = ((Client.make_connect c).getD []).length - 2 := by
  obtain ⟨h1, h2, h3, h4, h5, h6, hc⟩ := Client.new_inv h
  subst hc
  have key : Client.make_connect
      { client_id := cid, username := u, password := p, connected := false,
        keep_alive_secs := k % 256, pending_subscribe_ids := [],
        next_message_id := 1, publish_functions := [] }
      = some ([0x10, 20 + cid.length + u.length + p.length - 2, 0, 6, 77, 81, 73,
          115, 100, 112, 3, 0xC2, 0, k % 256, 0, cid.length]
          ++ cid ++ [0, u.length] ++ u ++ [0, p.length] ++ p) := by
    simp only [Client.make_connect,
      Nat.mod_eq_of_lt (show cid.length < 256 by omega),
      Nat.mod_eq_of_lt (show u.length < 256 by omega),
      Nat.mod_eq_of_lt (show p.length < 256 by omega),
      Nat.mod_eq_of_lt
        (show 20 + cid.length + u.length + p.length < 256 by omega)]
    rw [if_neg (by omega)]
  rw [key]
  refine ⟨by simp, ?_, ?_⟩
  · simp only [Option.getD_some, List.length_append, List.length_cons,
      List.length_nil]
    omega
  · simp only [Option.getD_some, List.cons_append, List.getD_cons_succ,
      List.getD_cons_zero, List.length_append, List.length_cons, List.length_nil]
    omega

/-- Witness for make_connect_bounded at the test client. -/
theorem make_connect_bounded_witness :
    Client.make_connect freshClient ≠ none
    ∧ ((Client.make_connect freshClient).getD []).length ≤ 127
    ∧ ((Client.make_connect freshClient).getD []).getD 1 0
        = ((Client.make_connect freshClient).getD []).length - 2 :=
  make_connect_bounded [105, 100, 101, 110] [117, 115, 101, 114, 110, 97, 109, 101]
    [112, 97, 115, 115, 119, 111, 114, 100] 15 freshClient rfl

end Mqtt
